import Mathlib

/-!
Shallow embedding of the experiment driver
`docs/example_experiment2_lq_cma.py` (CMA-ES/lq-cma repository).

The script iterates the problems of a benchmark suite, applies an external
optimizer with restarts to each one until an evaluation budget is exhausted
or the final target is hit, records stopping conditions and per-evaluation
timings, and writes a results file after each problem.

External libraries (`cocoex`, `cma`, `scipy`) are opaque: the optimizer is
modelled as an arbitrary state transformer, and the default population size
of `cma.CMAEvolutionStrategy` as an arbitrary function of the dimension.
`budget_multiplier` is modelled as a natural number; with the script's
default value `2e5` the float expression of `evalsleft` is exact and the
`int(...)` truncation is the identity.
-/

/-- The mutable observable state of one `cocoex` problem instance: the plain
and with-constraints evaluation counters and the `final_target_hit` flag.
The dimension of a problem is immutable and is passed separately. -/
structure ProblemState where
  evaluations : Nat
  evaluations_constraints : Nat
  final_target_hit : Bool
deriving DecidableEq

/-- Lines 136-137: `evalsleft = lambda: int(problem.dimension * budget_multiplier
+ 1 - max((problem.evaluations, problem.evaluations_constraints)))`. -/
def evalsleft (m d : Nat) (p : ProblemState) : Int :=
  ((d * m + 1 : Nat) : Int) - ((max p.evaluations p.evaluations_constraints : Nat) : Int)

/-- The five reachable branches of the `if fmin is ...` chain in the restart
loop (lines 145-199).  The branch guarded by `11 < 3` at line 155 is
statically disabled, so the configured solver `cma.fmin2` (line 81) falls
into the final `else` branch, modelled by `cma_fmin2`. -/
inductive Solver where
  | scipy_fmin
  | fmin_slsqp
  | random_search
  | fmin_cobyla
  | cma_fmin2
deriving DecidableEq

/-- Which branches append a record to `stoppings[problem.index]`:
`scipy.optimize.fmin` (line 147), `scipy.optimize.fmin_slsqp` (line 152) and
the default `cma.fmin2` branch (line 196) do; the `random_search`
(lines 153-154) and `fmin_cobyla` (lines 159-161) branches do not. -/
def appendsStopping : Solver → Bool
  | Solver.scipy_fmin => true
  | Solver.fmin_slsqp => true
  | Solver.random_search => false
  | Solver.fmin_cobyla => false
  | Solver.cma_fmin2 => true

/-- The budget-related arguments the driver passes to one optimizer call:
the budget figure (`maxfun`, `iter`, `evals` or `maxfevals` depending on the
branch) and, in the default `cma.fmin2` branch only, the population size
option of line 186. -/
structure OptArgs where
  budget : Int
  popsize : Option Nat
deriving DecidableEq

/-- The arguments computed inside the loop body for one optimizer call.
`irestart` is the already incremented restart counter (so it is nonnegative
whenever this is reached from the loop).
* `scipy_fmin`: `maxfun=evalsleft()` (line 146);
* `fmin_slsqp`: `iter=int(evalsleft() / problem.dimension + 1)` (line 149);
* `random_search`: `evals=evalsleft()` (line 154);
* `fmin_cobyla`: `maxfun=evalsleft()` (line 160);
* `cma_fmin2`: `maxfevals=evalsleft()` (line 181) and
  `popsize = 2**irestart * default_popsize(problem.dimension)` (line 170),
  where `default_popsize` is the opaque function `dp`. -/
def optArgs (m d : Nat) (solver : Solver) (dp : Nat → Nat) (irestart : Int)
    (p : ProblemState) : OptArgs :=
  match solver with
  | Solver.scipy_fmin => { budget := evalsleft m d p, popsize := none }
  | Solver.fmin_slsqp => { budget := evalsleft m d p / (d : Int) + 1, popsize := none }
  | Solver.random_search => { budget := evalsleft m d p, popsize := none }
  | Solver.fmin_cobyla => { budget := evalsleft m d p, popsize := none }
  | Solver.cma_fmin2 =>
      { budget := evalsleft m d p, popsize := some (2 ^ irestart.toNat * dp d) }

/-- Outcome of the restart `while` loop (lines 140-199) for one problem.
`checks` records, for every evaluation of the loop condition, the problem
state at that moment together with the value `evalsleft()` computed there.
`calls` records the arguments of each optimizer invocation, in order.
`stops` counts the records appended to `stoppings[problem.index]`.
`fuelExhausted` is true when the recursion ran out of fuel with the loop
condition never having become false (the loop would have continued). -/
structure LoopResult where
  state : ProblemState
  irestart : Int
  iterations : Nat
  checks : List (ProblemState × Int)
  calls : List OptArgs
  stops : Nat
  fuelExhausted : Bool
deriving DecidableEq

/-- Lines 140-199: `irestart = -1; while evalsleft() > 0 and not
problem.final_target_hit: irestart += 1; <invoke solver branch>`.
The external optimizer is the opaque state transformer `opt`.  The break
`if 1 < 3 and irestart >= 9: break` (lines 197-198, with `1 < 3` constantly
true) exists only in the default `cma.fmin2` branch and is executed after
the record is appended.  Recursion is bounded by explicit fuel. -/
def restartLoop (m d : Nat) (solver : Solver)
    (opt : OptArgs → ProblemState → ProblemState) (dp : Nat → Nat) :
    Nat → Int → ProblemState → LoopResult
  | 0, irestart, p =>
      { state := p, irestart := irestart, iterations := 0, checks := [], calls := [],
        stops := 0, fuelExhausted := true }
  | fuel + 1, irestart, p =>
      let b := evalsleft m d p
      if 0 < b ∧ p.final_target_hit = false then
        let ir := irestart + 1
        let args := optArgs m d solver dp ir p
        let p1 := opt args p
        let appended := if appendsStopping solver then 1 else 0
        if solver = Solver.cma_fmin2 ∧ 9 ≤ ir then
          { state := p1, irestart := ir, iterations := 1, checks := [(p, b)],
            calls := [args], stops := appended, fuelExhausted := false }
        else
          let rest := restartLoop m d solver opt dp fuel ir p1
          { state := rest.state, irestart := rest.irestart,
            iterations := rest.iterations + 1, checks := (p, b) :: rest.checks,
            calls := args :: rest.calls, stops := appended + rest.stops,
            fuelExhausted := rest.fuelExhausted }
      else
        { state := p, irestart := irestart, iterations := 0, checks := [(p, b)],
          calls := [], stops := 0, fuelExhausted := false }

/-- Modelled from the spec: the suite problems are external; a problem
"exposes a dimension, an evaluation counter, a final target hit flag, and a
callable evaluation interface" and the driver call `problem(np.zeros(...))`
(line 134) performs one evaluation, incrementing the evaluation counter.
Whether that evaluation hits the final target is abstracted by `hit`. -/
def callProblem (hit : Bool) (p : ProblemState) : ProblemState :=
  { evaluations := p.evaluations + 1,
    evaluations_constraints := p.evaluations_constraints,
    final_target_hit := p.final_target_hit || hit }

/-- `np.zeros(problem.dimension)` of line 134. -/
def zeros (d : Nat) : List Int := List.replicate d 0

/-- Lines 201-202: `(time.time() - time1) / problem.evaluations if
problem.evaluations else 0` — the elapsed time is divided by the evaluation
count only when that count is nonzero. -/
def timingSample (elapsed : Rat) (evaluations : Nat) : Rat :=
  if evaluations ≠ 0 then elapsed / (evaluations : Rat) else 0

/-- What the driver does for one problem that passed the batch filter
(lines 133-202): `preLoopEvalPoints` are the points at which the driver
itself evaluates the problem before the restart loop, `stateAfterZeroEval`
is the problem state after that evaluation, `loop` is the restart loop
outcome and `timing` the sample appended to `timings[problem.dimension]`. -/
structure ProcResult where
  preLoopEvalPoints : List (List Int)
  stateAfterZeroEval : ProblemState
  loop : LoopResult
  timing : Rat
deriving DecidableEq

/-- Lines 133-202 for a single problem: evaluate the problem once at the
all-zeros vector (line 134), then run the restart loop starting with
`irestart = -1` (line 140), then compute the timing sample (lines 201-202).
`elapsed` abstracts the wall-clock time `time.time() - time1`. -/
def processProblem (m d : Nat) (solver : Solver)
    (opt : OptArgs → ProblemState → ProblemState) (dp : Nat → Nat) (fuel : Nat)
    (zeroHit : Bool) (elapsed : Rat) (p0 : ProblemState) : ProcResult :=
  let p1 := callProblem zeroHit p0
  let lr := restartLoop m d solver opt dp fuel (-1) p1
  { preLoopEvalPoints := [zeros d],
    stateAfterZeroEval := p1,
    loop := lr,
    timing := timingSample elapsed lr.state.evaluations }

/-- One problem of the external suite: its `problem.index`, its dimension,
its initial counter state, whether the all-zeros evaluation hits the final
target, and the elapsed wall-clock time of its processing. -/
structure SuiteProblem where
  index : Nat
  dimension : Nat
  init : ProblemState
  zeroHit : Bool
  elapsed : Rat
deriving DecidableEq

/-- Line 125: the problem at enumeration position `batch_counter` is
processed iff `batch_counter % batches == current_batch % batches`
(the `continue` skips it otherwise). -/
def inCurrentBatch (batches current_batch batch_counter : Nat) : Bool :=
  batch_counter % batches == current_batch % batches

/-- Lines 124-210: enumerate the suite, skip problems outside the current
batch, process each remaining problem in order.  Returns the list of
`(problem.index, result)` pairs of the processed problems in processing
order; after the j-th processed problem the results file holds the data of
the first j entries. -/
def runDriver (m : Nat) (solver : Solver)
    (opt : OptArgs → ProblemState → ProblemState) (dp : Nat → Nat)
    (fuel batches current_batch : Nat) (suite : List SuiteProblem) :
    List (Nat × ProcResult) :=
  (suite.enum.filter (fun q => inCurrentBatch batches current_batch q.1)).map
    (fun q => (q.2.index,
      processProblem m q.2.dimension solver opt dp fuel q.2.zeroHit q.2.elapsed q.2.init))

/-- Lines 204-210: the results file contains `repr(dict(stoppings))`, and
parsing it back with `ast.literal_eval` yields that dictionary.  A problem
index is a key of `stoppings` iff at least one record was appended for it,
i.e. iff its loop produced a nonzero `stops` count. -/
def resultsFileKeys (processed : List (Nat × ProcResult)) : List Nat :=
  (processed.filter (fun r => r.2.loop.stops != 0)).map (fun r => r.1)

/-- Which of the three optional dependencies are installed. -/
structure Availability where
  mkl : Bool
  cocopp : Bool
  cma : Bool
deriving DecidableEq

/-- Observable outcome of a successful import phase. -/
structure ImportState where
  printedMklMissing : Bool
  cocoppInGlobals : Bool
deriving DecidableEq

/-- Lines 39-81, the import-time behaviour of the script with respect to the
three optional dependencies:
* `set_num_threads` (lines 43-44): `try: import mkl / except ImportError:`
  prints a message; never fatal;
* lines 63-64: `try: import cocopp / except: pass`; never fatal; `cocopp`
  is in `globals()` iff the import succeeded;
* lines 68-69: `try: import cma / except: pass`; the import error itself is
  swallowed, but line 81 `fmin = cma.fmin2` then references the unbound
  name `cma` without any guard, raising a `NameError`. -/
def importPhase (av : Availability) : Except String ImportState :=
  let printedMklMissing := !av.mkl
  let cocoppInGlobals := av.cocopp
  if av.cma then Except.ok ⟨printedMklMissing, cocoppInGlobals⟩
  else Except.error "NameError: name cma is not defined"

/-- Whether the import phase raises an uncaught exception. -/
def importFatal (av : Availability) : Bool :=
  match importPhase av with
  | Except.ok _ => false
  | Except.error _ => true

/-- Line 96: the help tokens recognised in `sys.argv[1]`. -/
def helpTokens : List String := ["-h", "help", "-help", "--help"]

/-- Outcome of the `__main__` argument check of lines 95-101. -/
inductive StartupOutcome where
  | helpAbort
  | proceed
deriving DecidableEq

/-- Lines 96-98: `if len(sys.argv) > 1 and sys.argv[1] in ('-h', 'help',
'-help', '--help'): print(__doc__); raise ValueError(...)`.  Only the first
command-line argument (`sys.argv[1]`) is inspected; `argv` here is
`sys.argv[1:]`. -/
def mainStartup (argv : List String) : StartupOutcome :=
  match argv with
  | [] => StartupOutcome.proceed
  | a :: _ => if a ∈ helpTokens then StartupOutcome.helpAbort else StartupOutcome.proceed

/-- Overall outcome of a script run: an uncaught import-time exception, the
help abort (documentation printed, `ValueError` raised, no suite built), or
a completed experiment with its list of processed problems. -/
inductive RunOutcome where
  | importError (msg : String)
  | helpAbort
  | completed (processed : List (Nat × ProcResult))
deriving DecidableEq

/-- The script end to end: import phase (lines 39-81), help check
(lines 95-98), then suite construction and the experiment loop
(lines 111-210). -/
def scriptMain (av : Availability) (argv : List String) (m : Nat) (solver : Solver)
    (opt : OptArgs → ProblemState → ProblemState) (dp : Nat → Nat)
    (fuel batches current_batch : Nat) (suite : List SuiteProblem) : RunOutcome :=
  match importPhase av with
  | Except.error msg => RunOutcome.importError msg
  | Except.ok _ =>
      match mainStartup argv with
      | StartupOutcome.helpAbort => RunOutcome.helpAbort
      | StartupOutcome.proceed =>
          RunOutcome.completed (runDriver m solver opt dp fuel batches current_batch suite)

/-! ## Helper lemmas about the restart loop -/

/-- The `evalsleft` formula with the casts pushed inside. -/
theorem evalsleft_formula (m d : Nat) (p : ProblemState) :
    evalsleft m d p
      = (d : Int) * (m : Int) + 1
        - max (p.evaluations : Int) (p.evaluations_constraints : Int) := by
  simp [evalsleft, Nat.cast_max]

/-- Every loop-condition check recorded by `restartLoop` pairs a state with
the value of `evalsleft` at exactly that state. -/
theorem restartLoop_checks_eval (m d : Nat) (solver : Solver)
    (opt : OptArgs → ProblemState → ProblemState) (dp : Nat → Nat) :
    ∀ (fuel : Nat) (ir : Int) (p : ProblemState),
      ∀ c ∈ (restartLoop m d solver opt dp fuel ir p).checks, c.2 = evalsleft m d c.1 := by
  intro fuel
  induction fuel with
  | zero =>
      intro ir p c hc
      simp [restartLoop] at hc
  | succ n ih =>
      intro ir p c hc
      simp only [restartLoop] at hc
      split at hc
      · split at hc
        · simp only [List.mem_singleton] at hc
          subst hc
          rfl
        · simp only [List.mem_cons] at hc
          rcases hc with hc | hc
          · subst hc
            rfl
          · exact ih _ _ c hc
      · simp only [List.mem_singleton] at hc
        subst hc
        rfl

/-- Each loop iteration is preceded by a recorded loop-condition check. -/
theorem restartLoop_iterations_le_checks (m d : Nat) (solver : Solver)
    (opt : OptArgs → ProblemState → ProblemState) (dp : Nat → Nat) :
    ∀ (fuel : Nat) (ir : Int) (p : ProblemState),
      (restartLoop m d solver opt dp fuel ir p).iterations
        ≤ (restartLoop m d solver opt dp fuel ir p).checks.length := by
  intro fuel
  induction fuel with
  | zero =>
      intro ir p
      simp [restartLoop]
  | succ n ih =>
      intro ir p
      simp only [restartLoop]
      split
      · split
        · simp
        · simpa using ih _ _
      · simp

/-- In the default `cma.fmin2` branch the loop performs at most
`max (9 - ir).toNat 1` iterations when started with restart counter `ir`:
the counter is incremented to `ir + 1` at the top of the body and the body
breaks as soon as it reaches 9. -/
theorem restartLoop_cma_iterations_cap (m d : Nat)
    (opt : OptArgs → ProblemState → ProblemState) (dp : Nat → Nat) :
    ∀ (fuel : Nat) (ir : Int) (p : ProblemState),
      (restartLoop m d Solver.cma_fmin2 opt dp fuel ir p).iterations
        ≤ max (9 - ir).toNat 1 := by
  intro fuel
  induction fuel with
  | zero =>
      intro ir p
      simp [restartLoop]
  | succ n ih =>
      intro ir p
      simp only [restartLoop]
      split
      · split
        · simp only
          omega
        · rename_i hbreak
          simp only [not_and, true_and] at hbreak
          have h2 := ih (ir + 1) (opt (optArgs m d Solver.cma_fmin2 dp (ir + 1) p) p)
          simp only
          omega
      · simp only
        omega

/-- In the default `cma.fmin2` branch, the k-th optimizer call of a loop
started with restart counter `ir` carries the population size
`2 ^ (ir + 1 + k).toNat * dp d`. -/
theorem restartLoop_cma_popsize (m d : Nat)
    (opt : OptArgs → ProblemState → ProblemState) (dp : Nat → Nat) :
    ∀ (fuel : Nat) (ir : Int) (p : ProblemState) (k : Nat) (args : OptArgs),
      (restartLoop m d Solver.cma_fmin2 opt dp fuel ir p).calls.get? k = some args →
      args.popsize = some (2 ^ (ir + 1 + k).toNat * dp d) := by
  intro fuel
  induction fuel with
  | zero =>
      intro ir p k args h
      simp [restartLoop] at h
  | succ n ih =>
      intro ir p k args h
      simp only [restartLoop] at h
      split at h
      · split at h
        · match k with
          | 0 =>
              simp only [List.get?] at h
              cases h
              simp [optArgs]
          | Nat.succ j =>
              simp only [List.get?] at h
              cases h
        · match k with
          | 0 =>
              simp only [List.get?] at h
              cases h
              simp [optArgs]
          | Nat.succ j =>
              simp only [List.get?] at h
              have h2 := ih _ _ j args h
              rw [h2]
              have h3 : (ir + 1 + 1 + (j : Int)).toNat
                  = (ir + 1 + ((Nat.succ j : Nat) : Int)).toNat := by
                push_cast
                omega
              rw [h3]
      · simp only [List.get?_nil] at h
        cases h

/-- The number of records appended to `stoppings[problem.index]` equals the
number of loop iterations in the appending branches and 0 otherwise. -/
theorem restartLoop_stops_eq (m d : Nat) (solver : Solver)
    (opt : OptArgs → ProblemState → ProblemState) (dp : Nat → Nat) :
    ∀ (fuel : Nat) (ir : Int) (p : ProblemState),
      (restartLoop m d solver opt dp fuel ir p).stops
        = if appendsStopping solver
          then (restartLoop m d solver opt dp fuel ir p).iterations else 0 := by
  intro fuel
  induction fuel with
  | zero =>
      intro ir p
      simp [restartLoop]
  | succ n ih =>
      intro ir p
      simp only [restartLoop]
      split
      · split
        · rfl
        · have h2 := ih (ir + 1) (opt (optArgs m d solver dp (ir + 1) p) p)
          by_cases happ : appendsStopping solver
          · simp only [if_pos happ] at h2 ⊢
            omega
          · simp only [if_neg happ] at h2 ⊢
            omega
      · split <;> rfl

/-! ## Claim theorems -/

/-- Claim C1: before every restart attempt the driver recomputes the
remaining evaluation budget, and its value equals
`dimension * budget_multiplier + 1 - max(evaluations, evaluations_constraints)`
with both counters read from the problem state at that moment: every
loop-condition check records exactly this formula of the current state, and
every iteration is preceded by such a check. -/
theorem budget_formula_each_restart (m d : Nat) (solver : Solver)
    (opt : OptArgs → ProblemState → ProblemState) (dp : Nat → Nat) (fuel : Nat)
    (p : ProblemState) :
    (∀ c ∈ (restartLoop m d solver opt dp fuel (-1) p).checks,
        c.2 = (d : Int) * (m : Int) + 1
          - max (c.1.evaluations : Int) (c.1.evaluations_constraints : Int)) ∧
    (restartLoop m d solver opt dp fuel (-1) p).iterations
      ≤ (restartLoop m d solver opt dp fuel (-1) p).checks.length := by
  constructor
  · intro c hc
    rw [restartLoop_checks_eval m d solver opt dp fuel (-1) p c hc]
    exact evalsleft_formula m d c.1
  · exact restartLoop_iterations_le_checks m d solver opt dp fuel (-1) p

/-- Witness for C1: a concrete run with `budget_multiplier = 2` in dimension
1 whose single recorded check carries the value `1 * 2 + 1 - max 0 0 = 3`. -/
theorem budget_formula_each_restart_witness :
    ((3 : Int)) = ((1 : Nat) : Int) * ((2 : Nat) : Int) + 1
      - max (((0 : Nat) : Int)) (((0 : Nat) : Int)) :=
  (budget_formula_each_restart 2 1 Solver.fmin_slsqp (fun _ q => q) (fun _ => 1) 1
      ⟨0, 0, false⟩).1 (⟨0, 0, false⟩, 3) (by decide)

/-- Claim C2 counterexample: in the `scipy.optimize.fmin_slsqp` branch there
is no restart cap.  With an optimizer that changes nothing (so the remaining
budget stays positive and the target is never hit), the loop is still
running after 11 iterations, more than the claimed bound of 10. -/
theorem restart_cap_slsqp_counterexample :
    (restartLoop 1 2 Solver.fmin_slsqp (fun _ q => q) (fun _ => 4) 11 (-1)
        ⟨1, 0, false⟩).iterations = 11 ∧
    (restartLoop 1 2 Solver.fmin_slsqp (fun _ q => q) (fun _ => 4) 11 (-1)
        ⟨1, 0, false⟩).fuelExhausted = true := by
  decide

/-- Claim C2 amended: only the default `cma.fmin2` branch (the branch taken
by the configured optimizer) caps the restart loop, at 10 iterations; the
other optimizer branches have no iteration cap.  For every optimizer
behaviour and every starting state, the default branch performs at most 10
iterations. -/
theorem restart_cap_cma_branch (m d : Nat)
    (opt : OptArgs → ProblemState → ProblemState) (dp : Nat → Nat) (fuel : Nat)
    (p : ProblemState) :
    (restartLoop m d Solver.cma_fmin2 opt dp fuel (-1) p).iterations ≤ 10 := by
  have h := restartLoop_cma_iterations_cap m d opt dp fuel (-1) p
  omega

/-- Claim C7: in the restart loop of the default `cma.fmin2` branch, the
population-size hint passed to the optimizer on restart attempt k (counting
from 0) equals `2 ^ k` times the default population size for the problem
dimension; in particular it doubles between successive restarts. -/
theorem popsize_doubling (m d : Nat) (opt : OptArgs → ProblemState → ProblemState)
    (dp : Nat → Nat) (fuel : Nat) (p : ProblemState) (k : Nat) (args : OptArgs)
    (h : (restartLoop m d Solver.cma_fmin2 opt dp fuel (-1) p).calls.get? k = some args) :
    args.popsize = some (2 ^ k * dp d) := by
  have h2 := restartLoop_cma_popsize m d opt dp fuel (-1) p k args h
  have h3 : ((-1 : Int) + 1 + (k : Int)).toNat = k := by omega
  rw [h3] at h2
  exact h2

/-- Witness for C7: in a concrete run the call of restart attempt 3 carries
the population size `2 ^ 3 * 3 = 24`. -/
theorem popsize_doubling_witness :
    ({ budget := 2, popsize := some 16 } : OptArgs).popsize = some (2 ^ 3 * 2) :=
  popsize_doubling 1 1 (fun _ q => q) (fun _ => 2) 12 ⟨0, 0, false⟩ 3
    { budget := 2, popsize := some 16 } (by decide)

/-- Claim C3: for every batch count n with 1 ≤ n and every problem position,
exactly one batch index i in 1..n selects that problem, namely the one with
position mod n = i mod n: the batches partition the suite. -/
theorem batch_partition (n pos : Nat) (hn : 1 ≤ n) :
    ∃! i, 1 ≤ i ∧ i ≤ n ∧ inCurrentBatch n i pos = true := by
  have hpos : pos % n < n := Nat.mod_lt _ (by omega)
  by_cases h0 : pos % n = 0
  · refine ⟨n, ⟨hn, le_refl n, ?_⟩, ?_⟩
    · simp [inCurrentBatch, h0, Nat.mod_self]
    · rintro j ⟨hj1, hjn, hjb⟩
      simp only [inCurrentBatch, beq_iff_eq, h0] at hjb
      rcases Nat.lt_or_ge j n with hlt | hge
      · rw [Nat.mod_eq_of_lt hlt] at hjb
        omega
      · omega
  · refine ⟨pos % n, ⟨by omega, by omega, ?_⟩, ?_⟩
    · simp [inCurrentBatch, Nat.mod_eq_of_lt hpos]
    · rintro j ⟨hj1, hjn, hjb⟩
      simp only [inCurrentBatch, beq_iff_eq] at hjb
      rcases Nat.lt_or_ge j n with hlt | hge
      · rw [Nat.mod_eq_of_lt hlt] at hjb
        omega
      · have hj : j = n := by omega
        subst hj
        rw [Nat.mod_self] at hjb
        omega

/-- Witness for C3: with 3 batches, position 7 is selected by batch index 1
and by no other index in 1..3. -/
theorem batch_partition_witness :
    ∃! i, 1 ≤ i ∧ i ≤ 3 ∧ inCurrentBatch 3 i 7 = true :=
  batch_partition 3 7 (by decide)

/-- Claim C8: running with `batch=9/8` and with `batch=1/8` processes
exactly the same problems with the same outcomes, because the batch filter
only uses `current_batch % batches` and `9 % 8 = 1 % 8`. -/
theorem batch9of8_eq_batch1of8 (m : Nat) (solver : Solver)
    (opt : OptArgs → ProblemState → ProblemState) (dp : Nat → Nat) (fuel : Nat)
    (suite : List SuiteProblem) :
    runDriver m solver opt dp fuel 8 9 suite = runDriver m solver opt dp fuel 8 1 suite :=
  rfl

/-- Claim C9: for every problem that passes the batch filter, the driver
evaluates the problem exactly once, at the all-zeros vector of the problem
dimension, before the restart loop; this evaluation increments the
evaluation counter, so the remaining budget computed at the loop entry
already accounts for it; and the restart loop starts from exactly the state
left by that evaluation. -/
theorem zero_eval_before_loop (m d : Nat) (solver : Solver)
    (opt : OptArgs → ProblemState → ProblemState) (dp : Nat → Nat) (fuel : Nat)
    (zeroHit : Bool) (elapsed : Rat) (p0 : ProblemState) :
    (processProblem m d solver opt dp fuel zeroHit elapsed p0).preLoopEvalPoints
        = [zeros d] ∧
    (processProblem m d solver opt dp fuel zeroHit elapsed p0).stateAfterZeroEval.evaluations
        = p0.evaluations + 1 ∧
    evalsleft m d (processProblem m d solver opt dp fuel zeroHit elapsed p0).stateAfterZeroEval
        = ((d * m + 1 : Nat) : Int)
          - ((max (p0.evaluations + 1) p0.evaluations_constraints : Nat) : Int) ∧
    (processProblem m d solver opt dp fuel zeroHit elapsed p0).loop
        = restartLoop m d solver opt dp fuel (-1)
            (processProblem m d solver opt dp fuel zeroHit elapsed p0).stateAfterZeroEval := by
  refine ⟨rfl, rfl, ?_, rfl⟩
  simp [processProblem, callProblem, evalsleft]

/-- Claim C10: the per-evaluation timing sample recorded after a problem is
the elapsed time divided by the final evaluation count when that count is
nonzero, and exactly 0 when the count is zero: the division is guarded. -/
theorem timing_sample_guarded (m d : Nat) (solver : Solver)
    (opt : OptArgs → ProblemState → ProblemState) (dp : Nat → Nat) (fuel : Nat)
    (zeroHit : Bool) (elapsed : Rat) (p0 : ProblemState) :
    ((processProblem m d solver opt dp fuel zeroHit elapsed p0).loop.state.evaluations ≠ 0 →
      (processProblem m d solver opt dp fuel zeroHit elapsed p0).timing
        = elapsed
          / ((processProblem m d solver opt dp fuel zeroHit elapsed p0).loop.state.evaluations
              : Rat)) ∧
    ((processProblem m d solver opt dp fuel zeroHit elapsed p0).loop.state.evaluations = 0 →
      (processProblem m d solver opt dp fuel zeroHit elapsed p0).timing = 0) := by
  constructor <;> intro h <;> simp only [processProblem, timingSample] at h ⊢ <;> simp [h]

/-- Witness for C10: a run whose problem was evaluated once (at the zero
vector) gets the timing sample `5 / 1`. -/
theorem timing_sample_guarded_witness :
    (processProblem 1 1 Solver.cma_fmin2 (fun _ q => q) (fun _ => 1) 0 false
        (5 : Rat) ⟨0, 0, false⟩).timing
      = (5 : Rat)
        / (((processProblem 1 1 Solver.cma_fmin2 (fun _ q => q) (fun _ => 1) 0 false
            (5 : Rat) ⟨0, 0, false⟩).loop.state.evaluations : Nat) : Rat) :=
  (timing_sample_guarded 1 1 Solver.cma_fmin2 (fun _ q => q) (fun _ => 1) 0 false 5
      ⟨0, 0, false⟩).1 (by decide)

/-- Every entry of the processed list has the stop-record count of its
restart loop: the count of loop iterations in the appending branches, 0 in
the `random_search` and `fmin_cobyla` branches. -/
theorem runDriver_loop_stops (m : Nat) (solver : Solver)
    (opt : OptArgs → ProblemState → ProblemState) (dp : Nat → Nat)
    (fuel batches current_batch : Nat) (suite : List SuiteProblem) :
    ∀ r ∈ runDriver m solver opt dp fuel batches current_batch suite,
      r.2.loop.stops
        = if appendsStopping solver then r.2.loop.iterations else 0 := by
  intro r hr
  simp only [runDriver, List.mem_map] at hr
  obtain ⟨q, hq, hrq⟩ := hr
  subst hrq
  simp only [processProblem]
  exact restartLoop_stops_eq m q.2.dimension solver opt dp fuel (-1)
    (callProblem q.2.zeroHit q.2.init)

/-- Claim C4 counterexample: in the `random_search` branch no stopping
record is ever appended, so after processing the problem with index 5 the
persisted mapping has an empty key set although problem 5 was processed. -/
theorem results_keys_random_search_counterexample :
    ((runDriver 1 Solver.random_search (fun _ q => q) (fun _ => 1) 3 1 1
        [⟨5, 2, ⟨0, 0, false⟩, false, 0⟩]).map (fun r => r.1) = [5]) ∧
    resultsFileKeys (runDriver 1 Solver.random_search (fun _ q => q) (fun _ => 1) 3 1 1
        [⟨5, 2, ⟨0, 0, false⟩, false, 0⟩]) = [] := by
  decide

/-- Claim C4 amended: at every point of the run, the key set of the
persisted mapping consists of exactly those problems processed so far whose
restart loop ran at least one iteration in a branch that appends stopping
records (`scipy.optimize.fmin`, `fmin_slsqp`, or the default `cma.fmin2`
branch); problems handled by the `random_search` or `fmin_cobyla` branches,
and problems whose loop never ran, leave no key. -/
theorem results_keys_iff_appended (m : Nat) (solver : Solver)
    (opt : OptArgs → ProblemState → ProblemState) (dp : Nat → Nat)
    (fuel batches current_batch : Nat) (suite : List SuiteProblem) (j i : Nat) :
    i ∈ resultsFileKeys
        ((runDriver m solver opt dp fuel batches current_batch suite).take j) ↔
      ∃ r ∈ (runDriver m solver opt dp fuel batches current_batch suite).take j,
        r.1 = i ∧ appendsStopping solver = true ∧ 1 ≤ r.2.loop.iterations := by
  have hstops := runDriver_loop_stops m solver opt dp fuel batches current_batch suite
  constructor
  · intro hi
    simp only [resultsFileKeys, List.mem_map, List.mem_filter, bne_iff_ne, ne_eq] at hi
    obtain ⟨r, ⟨hrtake, hpred⟩, hri⟩ := hi
    have hrL := List.take_subset j _ hrtake
    have hs := hstops r hrL
    refine ⟨r, hrtake, hri, ?_, ?_⟩
    · by_contra happ
      rw [if_neg happ] at hs
      exact hpred hs
    · by_cases happ : appendsStopping solver = true
      · rw [if_pos happ] at hs
        omega
      · rw [if_neg happ] at hs
        exact absurd hs hpred
  · rintro ⟨r, hrtake, hri, happ, hiter⟩
    simp only [resultsFileKeys, List.mem_map, List.mem_filter, bne_iff_ne, ne_eq]
    refine ⟨r, ⟨hrtake, ?_⟩, hri⟩
    have hrL := List.take_subset j _ hrtake
    have hs := hstops r hrL
    rw [if_pos happ] at hs
    omega

/-- Claim C5 counterexample: with `mkl` and `cocopp` installed but `cma`
missing, the import phase is fatal: the `try import cma / except: pass`
swallows the import error, but the unguarded assignment `fmin = cma.fmin2`
at line 81 raises a `NameError` that terminates the run. -/
theorem missing_cma_fatal_counterexample :
    importFatal ⟨true, true, false⟩ = true := rfl

/-- Claim C5 amended: a missing `mkl` (threading-tuning library) or a
missing `cocopp` (post-processing library) is caught at import time and
skipped, never fatal; a missing `cma` (optimizer library) is caught at its
own import but the run still dies on the unguarded `fmin = cma.fmin2`
assignment, so the absence of `cma` is fatal. -/
theorem optional_deps_fatality (mk cp : Bool) :
    importFatal ⟨mk, cp, true⟩ = false ∧ importFatal ⟨mk, cp, false⟩ = true := by
  constructor <;> rfl

/-- Claim C6 counterexample: a help token that is not the first command-line
argument is ignored — the script proceeds into the experiment instead of
printing the documentation and aborting. -/
theorem help_token_later_ignored :
    ("-h" ∈ ["budget_multiplier=3", "-h"] ∧ "-h" ∈ helpTokens) ∧
    scriptMain ⟨true, true, true⟩ ["budget_multiplier=3", "-h"] 1 Solver.cma_fmin2
        (fun _ q => q) (fun _ => 1) 1 1 1 [] ≠ RunOutcome.helpAbort := by
  refine ⟨⟨?_, ?_⟩, ?_⟩ <;> decide

/-- Claim C6 amended: if the FIRST command-line argument is one of the help
tokens `-h`, `help`, `-help`, `--help` (and the imports succeeded), the
script prints the module documentation and aborts with a `ValueError`
before constructing the suite or running any experiment. -/
theorem help_first_token_aborts (t : String) (rest : List String)
    (av : Availability) (hcma : av.cma = true) (h : t ∈ helpTokens) (m : Nat)
    (solver : Solver) (opt : OptArgs → ProblemState → ProblemState) (dp : Nat → Nat)
    (fuel batches current_batch : Nat) (suite : List SuiteProblem) :
    scriptMain av (t :: rest) m solver opt dp fuel batches current_batch suite
      = RunOutcome.helpAbort := by
  simp [scriptMain, importPhase, hcma, mainStartup, h]

/-- Witness for C6 amended: `-h` as the first argument aborts the run. -/
theorem help_first_token_aborts_witness :
    scriptMain ⟨true, true, true⟩ ["-h"] 1 Solver.cma_fmin2 (fun _ q => q)
        (fun _ => 1) 1 1 1 [] = RunOutcome.helpAbort :=
  help_first_token_aborts "-h" [] ⟨true, true, true⟩ rfl (by decide) 1
    Solver.cma_fmin2 (fun _ q => q) (fun _ => 1) 1 1 1 []
